import Mathlib

/-!
Verification of the ESO1242a star-field animation script (`animation.py`).

The script is shallowly embedded: Python floats are modelled as exact
rationals (ℚ), the scene-graph engine's `self.play` calls are modelled as
emitted stage/command data, and the random draws of `numpy.random` are
modelled as explicit parameters constrained to the support of the
corresponding distribution.
-/

namespace ESO1242a

/-- An RGB color with channels in `[0,1]`, as manim's `to_rgb` produces. -/
structure Color where
  r : ℚ
  g : ℚ
  b : ℚ
deriving DecidableEq, Repr

/-- manim constant `RED = "#FC6255"`. -/
def RED : Color := ⟨252/255, 98/255, 85/255⟩

/-- manim constant `ORANGE = "#FF862F"`. -/
def ORANGE : Color := ⟨255/255, 134/255, 47/255⟩

/-- manim constant `YELLOW = "#FFFF00"`. -/
def YELLOW : Color := ⟨255/255, 255/255, 0⟩

/-- manim constant `WHITE = "#FFFFFF"`. -/
def WHITE : Color := ⟨1, 1, 1⟩

/-- manim constant `BLUE = "#58C4DD"`. -/
def BLUE : Color := ⟨88/255, 196/255, 221/255⟩

/-- manim's `interpolate_color`: componentwise linear interpolation in RGB. -/
def interpolate_color (c1 c2 : Color) (alpha : ℚ) : Color :=
  ⟨c1.r + (c2.r - c1.r) * alpha,
   c1.g + (c2.g - c1.g) * alpha,
   c1.b + (c2.b - c1.b) * alpha⟩

/-- `intensity_to_color` from `animation.py`:
clamp `t = intensity / 255` into `[0,1]`, then piecewise-linearly
interpolate red→orange (`t < 0.3`), orange→yellow (`t < 0.6`),
yellow→white (`t < 0.85`), white→blue (otherwise). -/
def intensity_to_color (intensity : ℚ) : Color :=
  let t := min 1 (max 0 (intensity / 255))
  if t < 3/10 then interpolate_color RED ORANGE (t / (3/10))
  else if t < 6/10 then interpolate_color ORANGE YELLOW ((t - 3/10) / (3/10))
  else if t < 85/100 then interpolate_color YELLOW WHITE ((t - 6/10) / (25/100))
  else interpolate_color WHITE BLUE ((t - 85/100) / (15/100))

/-- One star record `{x, y, intensity}` as loaded from the JSON file. -/
structure Star where
  x : ℚ
  y : ℚ
  intensity : ℚ
deriving DecidableEq, Repr

instance : Inhabited Star := ⟨⟨0, 0, 0⟩⟩

/-! ## Coordinate normalization (`construct`, the `if stars:` block)

`max(abs(c) for c in cs)` over a non-empty list of absolute values is
modelled as a fold of `max` with neutral element `0` (all `|c| ≥ 0`, so
the extra `0` does not change the maximum of a non-empty list). -/

/-- Maximum of the absolute values of a list, `0` for the empty list. -/
def maxAbsList (l : List ℚ) : ℚ := l.foldr (fun a m => max |a| m) 0

/-- Python's `v or 1` applied to a numeric maximum: `0` is falsy. -/
def orOne (v : ℚ) : ℚ := if v = 0 then 1 else v

/-- `scale_x = 4.0 / (max(abs(x) for x in xs) or 1)`; `1` when `stars` is empty. -/
def scale_x (stars : List Star) : ℚ :=
  if stars = [] then 1 else 4 / orOne (maxAbsList (stars.map Star.x))

/-- `scale_y = 2.0 / (max(abs(y) for y in ys) or 1)`; `1` when `stars` is empty. -/
def scale_y (stars : List Star) : ℚ :=
  if stars = [] then 1 else 2 / orOne (maxAbsList (stars.map Star.y))

/-- The per-record normalization `x = star['x'] * scale_x`, `y = star['y'] * scale_y`
applied to the whole record set (intensity untouched). -/
def normalize (stars : List Star) : List Star :=
  stars.map (fun s => ⟨s.x * scale_x stars, s.y * scale_y stars, s.intensity⟩)

/-! ## Per-star derived visuals -/

/-- `radius = 0.01 + intensity_norm * 0.02` with `intensity_norm = intensity / 255`. -/
def radiusOf (intensity : ℚ) : ℚ := 1/100 + (intensity / 255) * (2/100)

/-- `brightness = 0.4 + intensity_norm * 0.6`, the star's target opacity. -/
def brightnessOf (intensity : ℚ) : ℚ := 4/10 + (intensity / 255) * (6/10)

/-- The `if brightness > 0.8:` branch deciding whether a glow circle is built. -/
def glowEligible (intensity : ℚ) : Bool :=
  if (8:ℚ)/10 < brightnessOf intensity then true else false

/-- `target_opacities`, in the same order the stars are traversed. -/
def targetOpacities (stars : List Star) : List ℚ :=
  stars.map (fun s => brightnessOf s.intensity)

/-! ## Fade-in stage -/

/-- The squared distances of the normalized positions
(`np.hypot(x*scale_x, y*scale_y)` squared): `hypot` is strictly monotone in
the squared norm, so the comparisons `np.argsort` performs on the hypot
values coincide with the comparisons on these keys. -/
def distKeys (stars : List Star) : List ℚ :=
  stars.map (fun s => (s.x * scale_x stars) ^ 2 + (s.y * scale_y stars) ^ 2)

/-- `sorted_indices = np.argsort(distances)`: a permutation of
`0, …, len(stars)-1` arranging the distance keys in ascending order. -/
def sortedIndices (stars : List Star) : List ℕ :=
  List.insertionSort
    (fun i j => (distKeys stars).getD i 0 ≤ (distKeys stars).getD j 0)
    (List.range stars.length)

/-- The i-th fade-in group `sorted_indices[start:end]`, with
`start = i * group_size`, `end = (i+1) * group_size` for the first five
groups and `len(stars)` for the last. -/
def fadeInGroup (stars : List Star) (i : ℕ) : List ℕ :=
  let gs := stars.length / 6
  let s := i * gs
  let e := if i < 5 then (i + 1) * gs else stars.length
  ((sortedIndices stars).drop s).take (e - s)

/-- The six fade-in groups, in play order (`num_groups = 6`). -/
def fadeInGroups (stars : List Star) : List (List ℕ) :=
  (List.range 6).map (fadeInGroup stars)

/-- The opacity commands of the fade-in loop: within each group, index `idx`
is animated to `target_opacities[idx]`. -/
def fadeInAnims (stars : List Star) : List (List (ℕ × ℚ)) :=
  (fadeInGroups stars).map
    (fun g => g.map (fun idx => (idx, (targetOpacities stars).getD idx 0)))

/-! ## Constellation stage -/

/-- `bright_stars = sorted(stars, key=lambda s: s['intensity'], reverse=True)[:8]`:
the stars arranged in descending intensity, truncated to the first 8. -/
def brightStars (stars : List Star) : List Star :=
  (List.insertionSort (fun a b => b.intensity ≤ a.intensity) stars).take 8

/-- The constellation segments: the loop builds one line from each bright star
to the next one. -/
def constellationLines (stars : List Star) : List (Star × Star) :=
  (brightStars stars).zip (brightStars stars).tail

/-! ## Flash stage -/

/-- `bright_indices = [i for i, s in enumerate(stars) if s['intensity'] > 200][:12]`. -/
def flashIndices (stars : List Star) : List ℕ :=
  ((List.range stars.length).filter
    (fun i => decide (200 < (stars.getD i default).intensity))).take 12

/-- The opacity values one flashed star is successively commanded to:
boosted → target → boosted → target, with `boosted = min(target*2.2, 1.0)`
(the star starts the stage at its target opacity). -/
def flashOpacitySeq (target : ℚ) : List ℚ :=
  [min (target * (22/10)) 1, target, min (target * (22/10)) 1, target]

/-- The flash animations: each selected index paired with its opacity cycle,
whose target is `target_opacities[i]`. -/
def flashAnims (stars : List Star) : List (ℕ × List ℚ) :=
  (flashIndices stars).map (fun i => (i, flashOpacitySeq ((targetOpacities stars).getD i 0)))

/-! ## Stage sequencing -/

/-- The nine kinds of animation stage the script can issue `self.play` calls for. -/
inductive Stage where
  | title
  | titleMove
  | fadeIn
  | rotate
  | constellation
  | statistics
  | flash
  | finalTitle
  | closing
deriving DecidableEq, Repr

/-- The stages whose `self.play` calls execute, as a function of the record
set. Title entrance, title move, the six-group fade-in loop, the 45° rotation,
the final title (with its 90° rotation) and the closing message run
unconditionally. The constellation plays only under `if stars:` *and*
`if lines:` (at least one segment), the statistics panel under `if stars:`,
and the flash under `if stars:` *and* `if flash_anims:`. -/
def playedStages (stars : List Star) : List Stage :=
  [Stage.title, Stage.titleMove, Stage.fadeIn, Stage.rotate]
  ++ (if stars = [] then []
      else if constellationLines stars = [] then [] else [Stage.constellation])
  ++ (if stars = [] then [] else [Stage.statistics])
  ++ (if stars = [] then []
      else if flashIndices stars = [] then [] else [Stage.flash])
  ++ [Stage.finalTitle, Stage.closing]

/-! ## Synthetic fallback data (the `except FileNotFoundError:` handler body)

The random draws are modelled explicitly: a draw is valid when it lies in
the support of the distribution the code samples. The engine's cosine and
sine are abstract function parameters. -/

/-- The float64 value of `PI` (`numpy.pi`), as the exact rational it denotes. -/
def PI : ℚ := 884279719003555 / 281474976710656

/-- Support of `np.random.uniform(lo, hi)`: `lo` inclusive, `hi` exclusive. -/
def uniformSupport (lo hi x : ℚ) : Prop := lo ≤ x ∧ x < hi

/-- Support of `np.random.randint(lo, hi)`: an integer (denominator 1) with
`lo` inclusive and `hi` exclusive. -/
def randintSupport (lo hi n : ℚ) : Prop := lo ≤ n ∧ n < hi ∧ n.den = 1

/-- The three random draws one iteration of the fallback loop performs. -/
structure SynthDraw where
  angle : ℚ
  radius : ℚ
  intensity : ℚ
deriving DecidableEq, Repr

/-- A draw the random source can actually produce:
`angle = np.random.uniform(0, 2*PI)`, `r = np.random.uniform(0.5, 4.0)`,
`intensity = np.random.randint(150, 255)`. -/
def validDraw (d : SynthDraw) : Prop :=
  uniformSupport 0 (2 * PI) d.angle
  ∧ uniformSupport (1/2) 4 d.radius
  ∧ randintSupport 150 255 d.intensity

/-- The 200-iteration fallback loop: each iteration appends the star
`{x: r*cos(angle), y: r*sin(angle), intensity: intensity}`. -/
def synthStars (cosF sinF : ℚ → ℚ) (draw : Fin 200 → SynthDraw) : List Star :=
  (List.finRange 200).map (fun k =>
    ⟨(draw k).radius * cosF (draw k).angle,
     (draw k).radius * sinF (draw k).angle,
     (draw k).intensity⟩)

/-! ## Subsampling (the `len(stars) > 5000` branch)

`np.random.choice(len(stars), 5000, replace=False)` is modelled by the index
list it returns, constrained to that call's guaranteed postconditions
(length 5000, all indices in range, no duplicates). -/

/-- `stars = [data['stars'][i] for i in sel]`. -/
def subsample (stars : List Star) (sel : List ℕ) : List Star :=
  sel.map (fun i => stars.getD i default)

/-! ## Data acquisition (`try:`/`except FileNotFoundError:` block)

The JSON resource is modelled by its observable states: absent file,
unparsable content, or a parsed JSON object (a key/value map whose star
lists are already decoded). Only `FileNotFoundError` is caught by the
script; `json.JSONDecodeError` and `KeyError` propagate. -/

/-- Python exceptions the load path can raise. -/
inductive PyError where
  | fileNotFound
  | jsonDecode
  | keyMissing
deriving DecidableEq, Repr

/-- Content of an existing file: either unparsable text, or a JSON object
mapping top-level keys to lists of records. -/
inductive FileContent where
  | invalid
  | valid (fields : List (String × List Star))
deriving DecidableEq, Repr

/-- `open(json_path, ...)`: raises `FileNotFoundError` when the file is absent. -/
def openFile (resource : Option FileContent) : Except PyError FileContent :=
  match resource with
  | none => .error .fileNotFound
  | some c => .ok c

/-- `json.load(f)`: raises a decode error on unparsable content. -/
def jsonLoad (c : FileContent) : Except PyError (List (String × List Star)) :=
  match c with
  | .invalid => .error .jsonDecode
  | .valid d => .ok d

/-- `data['stars']`: raises `KeyError` when the field is missing. -/
def dictGetStars (d : List (String × List Star)) : Except PyError (List Star) :=
  match d.lookup "stars" with
  | none => .error .keyMissing
  | some v => .ok v

/-- The body of the `try:` block (before subsampling). -/
def tryLoad (resource : Option FileContent) : Except PyError (List Star) := do
  let f ← openFile resource
  let d ← jsonLoad f
  dictGetStars d

/-- The whole load step: the `except FileNotFoundError:` handler replaces that
one error by the synthetic star list; every other error propagates. -/
def loadStars (resource : Option FileContent) (synthetic : List Star) :
    Except PyError (List Star) :=
  match tryLoad resource with
  | .ok s => .ok s
  | .error .fileNotFound => .ok synthetic
  | .error e => .error e

end ESO1242a

namespace ESO1242a

/-! ## Helper lemmas about `maxAbsList` -/

theorem maxAbsList_nonneg (l : List ℚ) : 0 ≤ maxAbsList l := by
  induction l with
  | nil => simp [maxAbsList]
  | cons a t ih =>
    simp only [maxAbsList, List.foldr] at ih ⊢
    exact le_trans ih (le_max_right _ _)

theorem maxAbsList_map_mul (l : List ℚ) (c : ℚ) (hc : 0 ≤ c) :
    maxAbsList (l.map (fun a => a * c)) = c * maxAbsList l := by
  induction l with
  | nil => simp [maxAbsList]
  | cons a t ih =>
    simp only [maxAbsList, List.map, List.foldr] at ih ⊢
    rw [ih, mul_max_of_nonneg _ _ hc, abs_mul, abs_of_nonneg hc, mul_comm |a| c]

theorem orOne_pos (m : ℚ) (hm : 0 ≤ m) : 0 < orOne m := by
  unfold orOne
  split
  · norm_num
  · exact lt_of_le_of_ne hm (Ne.symm (by assumption))

theorem scale_x_nonneg (stars : List Star) : 0 ≤ scale_x stars := by
  unfold scale_x
  split
  · norm_num
  · exact le_of_lt (div_pos (by norm_num) (orOne_pos _ (maxAbsList_nonneg _)))

theorem scale_y_nonneg (stars : List Star) : 0 ≤ scale_y stars := by
  unfold scale_y
  split
  · norm_num
  · exact le_of_lt (div_pos (by norm_num) (orOne_pos _ (maxAbsList_nonneg _)))

/-- **C1.** The four interpolation segments of `intensity_to_color` meet at the
breakpoints: the left segment's value (hence, being affine, its left limit) at
normalized intensity 0.30, 0.60 and 0.85 equals the value `intensity_to_color`
returns there (which the right segment computes). The corresponding raw
intensities are `0.30*255 = 153/2`, `0.60*255 = 153` and `0.85*255 = 867/4`. -/
theorem intensity_to_color_continuous_at_breakpoints :
    intensity_to_color (153/2) = interpolate_color RED ORANGE ((3/10) / (3/10))
    ∧ intensity_to_color 153 = interpolate_color ORANGE YELLOW ((6/10 - 3/10) / (3/10))
    ∧ intensity_to_color (867/4) = interpolate_color YELLOW WHITE ((85/100 - 6/10) / (25/100)) := by
  refine ⟨?_, ?_, ?_⟩ <;>
    simp only [intensity_to_color, interpolate_color, RED, ORANGE, YELLOW, WHITE, BLUE] <;>
    norm_num

/-- **C8.** Derived radius and target opacity are monotonically non-decreasing in
intensity on `[0,255]`, and the glow branch is taken exactly when the target
opacity exceeds 0.8. -/
theorem radius_opacity_monotone_glow_threshold :
    (∀ i1 i2 : ℚ, 0 ≤ i1 → i1 ≤ i2 → i2 ≤ 255 →
      radiusOf i1 ≤ radiusOf i2 ∧ brightnessOf i1 ≤ brightnessOf i2)
    ∧ (∀ i : ℚ, glowEligible i = true ↔ (8:ℚ)/10 < brightnessOf i) := by
  constructor
  · intro i1 i2 _ h12 _
    constructor
    · unfold radiusOf; nlinarith
    · unfold brightnessOf; nlinarith
  · intro i
    unfold glowEligible
    by_cases h : (8:ℚ)/10 < brightnessOf i <;> simp [h]

/-- Witness for C8 at the concrete intensities 0 and 255. -/
theorem radius_opacity_monotone_glow_threshold_witness :
    radiusOf 0 ≤ radiusOf 255 ∧ brightnessOf 0 ≤ brightnessOf 255 :=
  radius_opacity_monotone_glow_threshold.1 0 255 (by norm_num) (by norm_num) (by norm_num)

/-- **C2, counterexample.** The claim asserts that for *every* non-empty record
set the maximum absolute normalized x equals 4.0. The single-record set
`{x = 0, y = 1}` is non-empty, yet its x-axis maximum is 0: the zero-guard sets
the divisor to 1, so `scale_x = 4`, and every normalized x stays 0. -/
theorem normalization_max_x_counterexample :
    ¬ maxAbsList ((normalize [⟨0, 1, 100⟩]).map Star.x) = 4 := by
  simp [normalize, maxAbsList, scale_x, scale_y, orOne]

/-- **C2, amended.** For every record set, per axis independently: the maximum
absolute normalized x equals the horizontal half-extent 4.0 whenever some
x-coordinate is nonzero, and equals 0 (not the half-extent) when every
x-coordinate is zero — the guard only defaults the divisor to 1; likewise
for y with the vertical half-extent 2.0. -/
theorem normalization_max_equals_half_extent (stars : List Star) :
    (maxAbsList (stars.map Star.x) ≠ 0 → maxAbsList ((normalize stars).map Star.x) = 4)
    ∧ (maxAbsList (stars.map Star.y) ≠ 0 → maxAbsList ((normalize stars).map Star.y) = 2)
    ∧ (maxAbsList (stars.map Star.x) = 0 → maxAbsList ((normalize stars).map Star.x) = 0)
    ∧ (maxAbsList (stars.map Star.y) = 0 → maxAbsList ((normalize stars).map Star.y) = 0) := by
  have hmapx : (normalize stars).map Star.x
      = (stars.map Star.x).map (fun a => a * scale_x stars) := by
    simp [normalize, List.map_map]
  have hmapy : (normalize stars).map Star.y
      = (stars.map Star.y).map (fun a => a * scale_y stars) := by
    simp [normalize, List.map_map]
  refine ⟨?_, ?_, ?_, ?_⟩
  · intro hx
    have hne : stars ≠ [] := by
      intro h
      rw [h] at hx
      simp [maxAbsList] at hx
    have hxpos : 0 < maxAbsList (stars.map Star.x) :=
      lt_of_le_of_ne (maxAbsList_nonneg _) (Ne.symm hx)
    have hsx : scale_x stars = 4 / maxAbsList (stars.map Star.x) := by
      simp [scale_x, hne, orOne, hx]
    rw [hmapx, maxAbsList_map_mul _ _ (scale_x_nonneg stars), hsx,
      div_mul_cancel₀ 4 (ne_of_gt hxpos)]
  · intro hy
    have hne : stars ≠ [] := by
      intro h
      rw [h] at hy
      simp [maxAbsList] at hy
    have hypos : 0 < maxAbsList (stars.map Star.y) :=
      lt_of_le_of_ne (maxAbsList_nonneg _) (Ne.symm hy)
    have hsy : scale_y stars = 2 / maxAbsList (stars.map Star.y) := by
      simp [scale_y, hne, orOne, hy]
    rw [hmapy, maxAbsList_map_mul _ _ (scale_y_nonneg stars), hsy,
      div_mul_cancel₀ 2 (ne_of_gt hypos)]
  · intro hx0
    rw [hmapx, maxAbsList_map_mul _ _ (scale_x_nonneg stars), hx0, mul_zero]
  · intro hy0
    rw [hmapy, maxAbsList_map_mul _ _ (scale_y_nonneg stars), hy0, mul_zero]

/-- Witness for the amended C2 on the degenerate-axis record set
`[{x = 2, y = 0}, {x = -8, y = 0}]`: the x-maximum reaches the half-extent 4
while the all-zero y-axis normalizes to maximum 0. -/
theorem normalization_max_equals_half_extent_witness :
    maxAbsList ((normalize [(⟨2, 0, 10⟩ : Star), ⟨-8, 0, 20⟩]).map Star.x) = 4
    ∧ maxAbsList ((normalize [(⟨2, 0, 10⟩ : Star), ⟨-8, 0, 20⟩]).map Star.y) = 0 :=
  ⟨(normalization_max_equals_half_extent [(⟨2, 0, 10⟩ : Star), ⟨-8, 0, 20⟩]).1
      (by norm_num [maxAbsList, max_def, abs]),
   (normalization_max_equals_half_extent [(⟨2, 0, 10⟩ : Star), ⟨-8, 0, 20⟩]).2.2.2
      (by norm_num [maxAbsList, max_def, abs])⟩

/-- **C10.** A missing file is the only recovered data error: absence is
replaced by the synthetic list; an unparsable file fails with the JSON decode
error; a parsed file without the expected `stars` field fails with a key
error; and whenever the load step fails at all, the resource was not absent. -/
theorem missing_file_only_recovered_error :
    (∀ synthetic, loadStars none synthetic = .ok synthetic)
    ∧ (∀ synthetic, loadStars (some .invalid) synthetic = .error .jsonDecode)
    ∧ (∀ synthetic d, d.lookup "stars" = none →
        loadStars (some (.valid d)) synthetic = .error .keyMissing)
    ∧ (∀ resource synthetic e, loadStars resource synthetic = .error e → resource ≠ none) := by
  refine ⟨fun _ => rfl, fun _ => rfl, ?_, ?_⟩
  · intro synthetic d hd
    have h1 : tryLoad (some (.valid d)) = dictGetStars d := rfl
    simp [loadStars, h1, dictGetStars, hd]
  · intro resource synthetic e he hnone
    subst hnone
    have h1 : loadStars none synthetic = .ok synthetic := rfl
    rw [h1] at he
    simp at he

/-- Witness for C10: a parsed file whose only field is `"planets"` fails with a
key error, and that failing load indeed had a present resource. -/
theorem missing_file_only_recovered_error_witness :
    loadStars (some (.valid [("planets", [])])) [] = .error .keyMissing
    ∧ some (FileContent.valid [("planets", [])]) ≠ none := by
  refine ⟨missing_file_only_recovered_error.2.2.1 [] [("planets", [])] (by rfl), ?_⟩
  exact missing_file_only_recovered_error.2.2.2 (some (.valid [("planets", [])])) []
    .keyMissing (missing_file_only_recovered_error.2.2.1 [] [("planets", [])] (by rfl))

/-- **C3, counterexample.** Intensity 255 is *not* attainable:
`np.random.randint(150, 255)` excludes its upper bound, so no valid draw
sequence produces a synthetic star of intensity 255. -/
theorem synthetic_intensity_255_unattainable :
    ¬ ∃ (cosF sinF : ℚ → ℚ) (draw : Fin 200 → SynthDraw),
        (∀ k, validDraw (draw k))
        ∧ ∃ s ∈ synthStars cosF sinF draw, s.intensity = 255 := by
  rintro ⟨cosF, sinF, draw, hvalid, s, hs, h255⟩
  obtain ⟨k, -, hk⟩ := List.mem_map.mp hs
  subst hk
  have hlt : (draw k).intensity < 255 := (hvalid k).2.2.2.1
  rw [show (⟨(draw k).radius * cosF (draw k).angle, (draw k).radius * sinF (draw k).angle,
      (draw k).intensity⟩ : Star).intensity = (draw k).intensity from rfl] at h255
  rw [h255] at hlt
  exact lt_irrefl _ hlt

/-- **C3, amended.** When the input resource is absent, the fallback generates
exactly 200 records whose intensities are drawn uniformly from the integer
range `[150, 255)`: every generated intensity satisfies
`150 ≤ intensity ≤ 254`, and every integer value of `[150, 254]` is
attainable by some valid draw sequence. -/
theorem synthetic_generation_range :
    (∀ (cosF sinF : ℚ → ℚ) (draw : Fin 200 → SynthDraw),
      (∀ k, validDraw (draw k)) →
        (synthStars cosF sinF draw).length = 200
        ∧ ∀ s ∈ synthStars cosF sinF draw, 150 ≤ s.intensity ∧ s.intensity ≤ 254)
    ∧ (∀ v : ℚ, 150 ≤ v → v ≤ 254 → v.den = 1 →
        ∃ (cosF sinF : ℚ → ℚ) (draw : Fin 200 → SynthDraw),
          (∀ k, validDraw (draw k))
          ∧ ∃ s ∈ synthStars cosF sinF draw, s.intensity = v) := by
  constructor
  · intro cosF sinF draw hvalid
    refine ⟨by simp [synthStars], ?_⟩
    intro s hs
    obtain ⟨k, -, hk⟩ := List.mem_map.mp hs
    subst hk
    obtain ⟨-, -, hlo, hlt, hden⟩ := hvalid k
    refine ⟨hlo, ?_⟩
    have hnum : ((draw k).intensity.num : ℚ) = (draw k).intensity := by
      exact_mod_cast (Rat.den_eq_one_iff _).mp hden
    have h1 : ((draw k).intensity.num : ℚ) < 255 := by rw [hnum]; exact hlt
    have h2 : (draw k).intensity.num < 255 := by exact_mod_cast h1
    have h3 : (draw k).intensity.num ≤ 254 := by omega
    calc (⟨(draw k).radius * cosF (draw k).angle, (draw k).radius * sinF (draw k).angle,
          (draw k).intensity⟩ : Star).intensity
        = ((draw k).intensity.num : ℚ) := hnum.symm
      _ ≤ 254 := by exact_mod_cast h3
  · intro v hlo hhi hden
    refine ⟨fun _ => 1, fun _ => 0, fun _ => ⟨0, 1/2, v⟩, ?_, ?_⟩
    · intro k
      exact ⟨⟨le_refl 0, by norm_num [PI]⟩, ⟨by norm_num, by norm_num⟩,
        ⟨hlo, by linarith, hden⟩⟩
    · exact ⟨_, List.mem_map.mpr ⟨0, List.mem_finRange 0, rfl⟩, rfl⟩

/-- Witness for the amended C3: a concrete constant draw sequence at intensity
150, and attainability of the concrete value 200. -/
theorem synthetic_generation_range_witness :
    ((synthStars (fun _ => 1) (fun _ => 0) (fun _ => ⟨0, 1/2, 150⟩)).length = 200
      ∧ ∀ s ∈ synthStars (fun _ => 1) (fun _ => 0) (fun _ => ⟨0, 1/2, 150⟩),
          150 ≤ s.intensity ∧ s.intensity ≤ 254)
    ∧ ∃ (cosF sinF : ℚ → ℚ) (draw : Fin 200 → SynthDraw),
        (∀ k, validDraw (draw k))
        ∧ ∃ s ∈ synthStars cosF sinF draw, s.intensity = 200 := by
  constructor
  · exact synthetic_generation_range.1 _ _ _
      (fun k => ⟨⟨le_refl 0, by norm_num [PI]⟩, ⟨by norm_num, by norm_num⟩,
        ⟨by norm_num, by norm_num, by norm_num⟩⟩)
  · exact synthetic_generation_range.2 200 (by norm_num) (by norm_num) (by norm_num)

/-- **C5.** Under the postconditions of
`np.random.choice(len(stars), 5000, replace=False)` — 5000 indices, all in
range, none chosen twice — the subsampled list has exactly 5000 records, each
present in the original collection, and the record at each position equals
the original record at the chosen index (all fields unchanged). -/
theorem subsample_spec (stars : List Star) (sel : List ℕ)
    (hcount : 5000 < stars.length)
    (hlen : sel.length = 5000)
    (hbound : ∀ i ∈ sel, i < stars.length)
    (hnodup : sel.Nodup) :
    (subsample stars sel).length = 5000
    ∧ (∀ s ∈ subsample stars sel, s ∈ stars)
    ∧ (∀ k, k < 5000 →
        (subsample stars sel).getD k default = stars.getD (sel.getD k 0) default) := by
  refine ⟨by simp [subsample, hlen], ?_, ?_⟩
  · intro s hs
    obtain ⟨i, hi, rfl⟩ := List.mem_map.mp hs
    rw [List.getD_eq_getElem _ _ (hbound i hi)]
    exact List.getElem_mem _
  · intro k hk
    have hk1 : k < sel.length := by rw [hlen]; exact hk
    have hk2 : k < (subsample stars sel).length := by simpa [subsample]
    rw [List.getD_eq_getElem _ _ hk2, List.getD_eq_getElem _ _ hk1]
    simp [subsample]

/-- Witness for C5: a 5001-record collection subsampled by the identity index
list `[0, …, 4999]`. -/
theorem subsample_spec_witness :
    (subsample (List.replicate 5001 (⟨1, 2, 3⟩ : Star)) (List.range 5000)).length = 5000
    ∧ (∀ s ∈ subsample (List.replicate 5001 (⟨1, 2, 3⟩ : Star)) (List.range 5000),
        s ∈ List.replicate 5001 (⟨1, 2, 3⟩ : Star))
    ∧ (∀ k, k < 5000 →
        (subsample (List.replicate 5001 (⟨1, 2, 3⟩ : Star)) (List.range 5000)).getD k default
          = (List.replicate 5001 (⟨1, 2, 3⟩ : Star)).getD
              ((List.range 5000).getD k 0) default) :=
  subsample_spec _ _
    (by rw [List.length_replicate]; norm_num)
    (by rw [List.length_range])
    (fun i hi => by rw [List.length_replicate]; have := List.mem_range.mp hi; omega)
    (List.nodup_range 5000)

/-- In a sorted list, any element of an earlier slice is related to any
element of a later slice. -/
theorem sorted_slice_rel {α : Type} (r : α → α → Prop) (l : List α) (hs : List.Sorted r l)
    (s1 t1 s2 t2 : ℕ) (hst : s1 + t1 ≤ s2)
    (a b : α) (ha : a ∈ (l.drop s1).take t1) (hb : b ∈ (l.drop s2).take t2) :
    r a b := by
  obtain ⟨p1, hp1, hga⟩ := List.mem_iff_getElem.mp ha
  obtain ⟨p2, hp2, hgb⟩ := List.mem_iff_getElem.mp hb
  simp only [List.length_take, List.length_drop, lt_min_iff] at hp1 hp2
  have hb1 : s1 + p1 < l.length := by omega
  have hb2 : s2 + p2 < l.length := by omega
  have hga2 : l.get ⟨s1 + p1, hb1⟩ = a := by
    rw [← hga]
    simp [List.get_eq_getElem, List.getElem_take, List.getElem_drop]
  have hgb2 : l.get ⟨s2 + p2, hb2⟩ = b := by
    rw [← hgb]
    simp [List.get_eq_getElem, List.getElem_take, List.getElem_drop]
  have hlt : (⟨s1 + p1, hb1⟩ : Fin l.length) < ⟨s2 + p2, hb2⟩ := by
    simp only [Fin.mk_lt_mk]
    omega
  have hrel := hs.rel_get_of_lt hlt
  rw [hga2, hgb2] at hrel
  exact hrel

/-- **C7.** At most 12 records are flashed, every flashed index denotes a star
of intensity strictly above 200, each flash commands the opacity cycle
boosted→target→boosted→target with `boosted = min(2.2 * target, 1.0)`, and
(for records with intensity in range) no commanded opacity exceeds 1.0. -/
theorem flash_stage_safe (stars : List Star)
    (hvalid : ∀ s ∈ stars, s.intensity ≤ 255) :
    (flashIndices stars).length ≤ 12
    ∧ (∀ i ∈ flashIndices stars,
        i < stars.length ∧ 200 < (stars.getD i default).intensity)
    ∧ (∀ p ∈ flashAnims stars,
        p.2 = flashOpacitySeq ((targetOpacities stars).getD p.1 0)
        ∧ ∀ o ∈ p.2, o ≤ 1) := by
  have hmem : ∀ i ∈ flashIndices stars,
      i < stars.length ∧ 200 < (stars.getD i default).intensity := by
    intro i hi
    have h1 := List.mem_of_mem_take hi
    have h2 := List.mem_filter.mp h1
    exact ⟨List.mem_range.mp h2.1, of_decide_eq_true h2.2⟩
  refine ⟨?_, hmem, ?_⟩
  · have := List.length_take 12
      ((List.range stars.length).filter
        (fun i => decide (200 < (stars.getD i default).intensity)))
    unfold flashIndices
    omega
  · intro p hp
    obtain ⟨i, hi, rfl⟩ := List.mem_map.mp hp
    refine ⟨rfl, ?_⟩
    have hib := (hmem i hi).1
    have hstar : stars.getD i default ∈ stars := by
      rw [List.getD_eq_getElem _ _ hib]
      exact List.getElem_mem _
    have hint : (stars.getD i default).intensity ≤ 255 := hvalid _ hstar
    have hib2 : i < (targetOpacities stars).length := by simpa [targetOpacities]
    have htarget : (targetOpacities stars).getD i 0
        = brightnessOf (stars.getD i default).intensity := by
      rw [List.getD_eq_getElem _ _ hib2, List.getD_eq_getElem _ _ hib]
      simp [targetOpacities]
    have hle1 : (targetOpacities stars).getD i 0 ≤ 1 := by
      rw [htarget]
      unfold brightnessOf
      linarith
    intro o ho
    simp only [flashOpacitySeq, List.mem_cons, List.not_mem_nil, or_false] at ho
    rcases ho with h | h | h | h <;> rw [h]
    · exact min_le_right _ 1
    · exact hle1
    · exact min_le_right _ 1
    · exact hle1

/-- Witness for C7 on the two-record set `[{0,0,255}, {1,1,100}]`. -/
theorem flash_stage_safe_witness :
    (flashIndices [(⟨0, 0, 255⟩ : Star), ⟨1, 1, 100⟩]).length ≤ 12
    ∧ (∀ i ∈ flashIndices [(⟨0, 0, 255⟩ : Star), ⟨1, 1, 100⟩],
        i < ([(⟨0, 0, 255⟩ : Star), ⟨1, 1, 100⟩] : List Star).length
        ∧ 200 < (([(⟨0, 0, 255⟩ : Star), ⟨1, 1, 100⟩] : List Star).getD i default).intensity)
    ∧ (∀ p ∈ flashAnims [(⟨0, 0, 255⟩ : Star), ⟨1, 1, 100⟩],
        p.2 = flashOpacitySeq
          ((targetOpacities [(⟨0, 0, 255⟩ : Star), ⟨1, 1, 100⟩]).getD p.1 0)
        ∧ ∀ o ∈ p.2, o ≤ 1) :=
  flash_stage_safe _ (by
    intro s hs
    simp only [List.mem_cons, List.not_mem_nil, or_false] at hs
    rcases hs with rfl | rfl <;> norm_num)

/-- **C9.** For every record set, the constellation stage selects the 8
highest-intensity records (the selection together with some rest is a
permutation of the input, every record of the rest having intensity at most
that of every selected record), arranges them in descending-intensity order,
and builds one segment per consecutive pair, the k-th connecting the k-th
bright star to the (k+1)-th — a simple path in intensity-descending order
of `min(8, n)` stars and one fewer segment. In particular, for an input of
exactly 8 records all 8 are connected (a permutation of the input) with
exactly 7 segments. -/
theorem constellation_path (stars : List Star) :
    (∀ b ∈ brightStars stars, b ∈ stars)
    ∧ List.Sorted (fun a b : Star => b.intensity ≤ a.intensity) (brightStars stars)
    ∧ (brightStars stars).length = min 8 stars.length
    ∧ (∃ rest : List Star, List.Perm stars (brightStars stars ++ rest)
        ∧ ∀ b ∈ brightStars stars, ∀ s ∈ rest, s.intensity ≤ b.intensity)
    ∧ (constellationLines stars).length = (brightStars stars).length - 1
    ∧ (∀ k, k + 1 < (brightStars stars).length →
        (constellationLines stars).getD k default
          = ((brightStars stars).getD k default, (brightStars stars).getD (k + 1) default))
    ∧ (stars.length = 8 →
        List.Perm (brightStars stars) stars ∧ (constellationLines stars).length = 7) := by
  have hsortlen :
      (List.insertionSort (fun a b : Star => b.intensity ≤ a.intensity) stars).length
        = stars.length := List.length_insertionSort _ stars
  have hbright : brightStars stars
      = (List.insertionSort (fun a b : Star => b.intensity ≤ a.intensity) stars).take 8 := rfl
  have hsortsorted : List.Sorted (fun a b : Star => b.intensity ≤ a.intensity)
      (List.insertionSort (fun a b : Star => b.intensity ≤ a.intensity) stars) := by
    haveI : IsTotal Star (fun a b : Star => b.intensity ≤ a.intensity) :=
      ⟨fun a b => le_total b.intensity a.intensity⟩
    haveI : IsTrans Star (fun a b : Star => b.intensity ≤ a.intensity) :=
      ⟨fun a b c hab hbc => le_trans hbc hab⟩
    exact List.sorted_insertionSort _ stars
  have hsorted :
      List.Sorted (fun a b : Star => b.intensity ≤ a.intensity) (brightStars stars) := by
    rw [hbright]
    exact List.Pairwise.sublist (List.take_sublist 8 _) hsortsorted
  have hblen : (brightStars stars).length = min 8 stars.length := by
    rw [hbright, List.length_take, hsortlen]
  have hlines : (constellationLines stars).length = (brightStars stars).length - 1 := by
    unfold constellationLines
    rw [List.length_zip, List.length_tail]
    omega
  refine ⟨?_, hsorted, hblen, ?_, hlines, ?_, ?_⟩
  · intro b hb
    rw [hbright] at hb
    have hb2 := List.mem_of_mem_take hb
    rwa [List.mem_insertionSort] at hb2
  · refine ⟨(List.insertionSort (fun a b : Star => b.intensity ≤ a.intensity) stars).drop 8,
      ?_, ?_⟩
    · rw [hbright, List.take_append_drop]
      exact (List.perm_insertionSort _ stars).symm
    · intro b hb s hs
      have hb2 : b ∈ ((List.insertionSort
          (fun a b : Star => b.intensity ≤ a.intensity) stars).drop 0).take 8 := by
        rw [List.drop_zero, ← hbright]
        exact hb
      have hs2 : s ∈ ((List.insertionSort
            (fun a b : Star => b.intensity ≤ a.intensity) stars).drop 8).take
          (((List.insertionSort
            (fun a b : Star => b.intensity ≤ a.intensity) stars).drop 8).length) := by
        rw [List.take_length]
        exact hs
      exact sorted_slice_rel _ _ hsortsorted 0 8 8 _ (by omega) b s hb2 hs2
  · intro k hk1
    have hkb : k < (brightStars stars).length := by omega
    have hk2 : k < (constellationLines stars).length := by rw [hlines]; omega
    rw [List.getD_eq_getElem _ _ hk2, List.getD_eq_getElem _ _ hkb,
      List.getD_eq_getElem _ _ hk1]
    simp [constellationLines, List.getElem_zip, List.getElem_tail]
  · intro h8
    have htake : brightStars stars
        = List.insertionSort (fun a b : Star => b.intensity ≤ a.intensity) stars := by
      rw [hbright]
      exact List.take_of_length_le (by omega)
    constructor
    · rw [htake]
      exact List.perm_insertionSort _ stars
    · rw [hlines, hblen, h8]
      omega

/-- Witness for C9 on a concrete 8-record set: the exactly-8 conjunct and the
path-structure conjunct at the concrete index 0. -/
theorem constellation_path_witness :
    (List.Perm
      (brightStars [(⟨0, 0, 10⟩ : Star), ⟨1, 0, 20⟩, ⟨2, 0, 30⟩, ⟨3, 0, 40⟩,
        ⟨0, 1, 50⟩, ⟨1, 1, 60⟩, ⟨2, 1, 70⟩, ⟨3, 1, 80⟩])
      [(⟨0, 0, 10⟩ : Star), ⟨1, 0, 20⟩, ⟨2, 0, 30⟩, ⟨3, 0, 40⟩,
        ⟨0, 1, 50⟩, ⟨1, 1, 60⟩, ⟨2, 1, 70⟩, ⟨3, 1, 80⟩]
      ∧ (constellationLines [(⟨0, 0, 10⟩ : Star), ⟨1, 0, 20⟩, ⟨2, 0, 30⟩, ⟨3, 0, 40⟩,
          ⟨0, 1, 50⟩, ⟨1, 1, 60⟩, ⟨2, 1, 70⟩, ⟨3, 1, 80⟩]).length = 7)
    ∧ (constellationLines [(⟨0, 0, 10⟩ : Star), ⟨1, 0, 20⟩, ⟨2, 0, 30⟩, ⟨3, 0, 40⟩,
        ⟨0, 1, 50⟩, ⟨1, 1, 60⟩, ⟨2, 1, 70⟩, ⟨3, 1, 80⟩]).getD 0 default
        = ((brightStars [(⟨0, 0, 10⟩ : Star), ⟨1, 0, 20⟩, ⟨2, 0, 30⟩, ⟨3, 0, 40⟩,
            ⟨0, 1, 50⟩, ⟨1, 1, 60⟩, ⟨2, 1, 70⟩, ⟨3, 1, 80⟩]).getD 0 default,
           (brightStars [(⟨0, 0, 10⟩ : Star), ⟨1, 0, 20⟩, ⟨2, 0, 30⟩, ⟨3, 0, 40⟩,
            ⟨0, 1, 50⟩, ⟨1, 1, 60⟩, ⟨2, 1, 70⟩, ⟨3, 1, 80⟩]).getD 1 default) := by
  constructor
  · exact (constellation_path [(⟨0, 0, 10⟩ : Star), ⟨1, 0, 20⟩, ⟨2, 0, 30⟩, ⟨3, 0, 40⟩,
      ⟨0, 1, 50⟩, ⟨1, 1, 60⟩, ⟨2, 1, 70⟩, ⟨3, 1, 80⟩]).2.2.2.2.2.2 rfl
  · apply (constellation_path [(⟨0, 0, 10⟩ : Star), ⟨1, 0, 20⟩, ⟨2, 0, 30⟩, ⟨3, 0, 40⟩,
      ⟨0, 1, 50⟩, ⟨1, 1, 60⟩, ⟨2, 1, 70⟩, ⟨3, 1, 80⟩]).2.2.2.2.2.1
    rw [(constellation_path [(⟨0, 0, 10⟩ : Star), ⟨1, 0, 20⟩, ⟨2, 0, 30⟩, ⟨3, 0, 40⟩,
      ⟨0, 1, 50⟩, ⟨1, 1, 60⟩, ⟨2, 1, 70⟩, ⟨3, 1, 80⟩]).2.2.1]
    simp

/-- An insertion sort under a relation that holds between all pairs of
elements leaves the list unchanged. -/
theorem insertionSort_eq_self_of_rel {α : Type} (r : α → α → Prop) [DecidableRel r]
    (l : List α) (h : ∀ a ∈ l, ∀ b ∈ l, r a b) :
    List.insertionSort r l = l := by
  induction l with
  | nil => rfl
  | cons a t ih =>
    rw [List.insertionSort,
      ih (fun x hx y hy => h x (List.mem_cons_of_mem a hx) y (List.mem_cons_of_mem a hy))]
    cases t with
    | nil => rfl
    | cons b t2 =>
      rw [List.orderedInsert,
        if_pos (h a (List.mem_cons_self a (b :: t2)) b
          (List.mem_cons_of_mem a (List.mem_cons_self b t2)))]

/-- **C6.** The fade-in runs in exactly six groups; the groups together cover
every star index exactly once (their concatenation is a permutation of
`0, …, len(stars)-1`); the first five groups have size `len(stars) / 6` and
the last group the remainder; every index in an earlier group has squared —
and hence actual — normalized distance at most that of every index in a
later group; and every emitted fade-in command animates index `idx` to its
precomputed `target_opacities[idx]`. -/
theorem fade_in_six_groups_by_distance (stars : List Star) :
    (fadeInGroups stars).length = 6
    ∧ List.Perm (fadeInGroups stars).flatten (List.range stars.length)
    ∧ (∀ g, g < 5 → (fadeInGroup stars g).length = stars.length / 6)
    ∧ (fadeInGroup stars 5).length = stars.length - 5 * (stars.length / 6)
    ∧ (∀ g1 g2, g1 < g2 → g2 < 6 →
        ∀ i ∈ fadeInGroup stars g1, ∀ j ∈ fadeInGroup stars g2,
          (distKeys stars).getD i 0 ≤ (distKeys stars).getD j 0
          ∧ Real.sqrt ((distKeys stars).getD i 0 : ℝ)
              ≤ Real.sqrt ((distKeys stars).getD j 0 : ℝ))
    ∧ (∀ grp ∈ fadeInAnims stars, ∀ p ∈ grp,
        p.2 = (targetOpacities stars).getD p.1 0) := by
  have hlen : (sortedIndices stars).length = stars.length := by
    unfold sortedIndices
    rw [List.length_insertionSort, List.length_range]
  have hfg : ∀ g, g < 5 → fadeInGroup stars g
      = ((sortedIndices stars).drop (g * (stars.length / 6))).take (stars.length / 6) := by
    intro g hg
    simp only [fadeInGroup]
    rw [if_pos hg, add_mul, one_mul, Nat.add_sub_cancel_left]
  have hq6 : 6 * (stars.length / 6) ≤ stars.length := by
    rw [Nat.mul_comm]
    exact Nat.div_mul_le_self _ _
  have hlg : ∀ g, g < 5 → (fadeInGroup stars g).length = stars.length / 6 := by
    intro g hg
    rw [hfg g hg, List.length_take, List.length_drop, hlen]
    have h1 : (g + 1) * (stars.length / 6) ≤ 6 * (stars.length / 6) :=
      Nat.mul_le_mul_right _ (by omega)
    have h2 : (g + 1) * (stars.length / 6)
        = g * (stars.length / 6) + stars.length / 6 := by
      rw [add_mul, one_mul]
    omega
  have hg5 : fadeInGroup stars 5
      = (sortedIndices stars).drop (5 * (stars.length / 6)) := by
    simp only [fadeInGroup]
    rw [if_neg (by omega)]
    apply List.take_of_length_le
    rw [List.length_drop, hlen]
  have hlg5 : (fadeInGroup stars 5).length = stars.length - 5 * (stars.length / 6) := by
    rw [hg5, List.length_drop, hlen]
  have hstep : ∀ a b : ℕ, a + stars.length / 6 = b →
      ((sortedIndices stars).drop a).take (stars.length / 6)
        ++ (sortedIndices stars).drop b = (sortedIndices stars).drop a := by
    intro a b hab
    subst hab
    have h1 := List.take_append_drop (stars.length / 6) ((sortedIndices stars).drop a)
    rwa [List.drop_drop] at h1
  have hflat : (fadeInGroups stars).flatten = sortedIndices stars := by
    have h6 : fadeInGroups stars
        = [fadeInGroup stars 0, fadeInGroup stars 1, fadeInGroup stars 2,
           fadeInGroup stars 3, fadeInGroup stars 4, fadeInGroup stars 5] := rfl
    rw [h6]
    simp only [List.flatten_cons, List.flatten_nil, List.append_nil]
    rw [hfg 0 (by omega), hfg 1 (by omega), hfg 2 (by omega), hfg 3 (by omega),
      hfg 4 (by omega), hg5]
    rw [hstep (4 * (stars.length / 6)) (5 * (stars.length / 6)) (by ring)]
    rw [hstep (3 * (stars.length / 6)) (4 * (stars.length / 6)) (by ring)]
    rw [hstep (2 * (stars.length / 6)) (3 * (stars.length / 6)) (by ring)]
    rw [hstep (1 * (stars.length / 6)) (2 * (stars.length / 6)) (by ring)]
    rw [hstep (0 * (stars.length / 6)) (1 * (stars.length / 6)) (by ring)]
    simp
  have hsorted : List.Sorted
      (fun i j : ℕ => (distKeys stars).getD i 0 ≤ (distKeys stars).getD j 0)
      (sortedIndices stars) := by
    unfold sortedIndices
    haveI : IsTotal ℕ
        (fun i j : ℕ => (distKeys stars).getD i 0 ≤ (distKeys stars).getD j 0) :=
      ⟨fun a b => le_total _ _⟩
    haveI : IsTrans ℕ
        (fun i j : ℕ => (distKeys stars).getD i 0 ≤ (distKeys stars).getD j 0) :=
      ⟨fun a b c => le_trans⟩
    exact List.sorted_insertionSort _ _
  have hord : ∀ g1 g2, g1 < g2 → g2 < 6 →
      ∀ i ∈ fadeInGroup stars g1, ∀ j ∈ fadeInGroup stars g2,
        (distKeys stars).getD i 0 ≤ (distKeys stars).getD j 0 := by
    intro g1 g2 h12 h26 i hi j hj
    have hg1lt : g1 < 5 := by omega
    have hi2 : i ∈ ((sortedIndices stars).drop (g1 * (stars.length / 6))).take
        (stars.length / 6) := by
      rw [← hfg g1 hg1lt]
      exact hi
    have hkey : g1 * (stars.length / 6) + stars.length / 6
        ≤ g2 * (stars.length / 6) := by
      have h1 : (g1 + 1) * (stars.length / 6) ≤ g2 * (stars.length / 6) :=
        Nat.mul_le_mul_right _ (by omega)
      have h2 : (g1 + 1) * (stars.length / 6)
          = g1 * (stars.length / 6) + stars.length / 6 := by
        rw [add_mul, one_mul]
      omega
    rcases Nat.lt_or_ge g2 5 with h5 | h5
    · have hj2 : j ∈ ((sortedIndices stars).drop (g2 * (stars.length / 6))).take
          (stars.length / 6) := by
        rw [← hfg g2 h5]
        exact hj
      exact sorted_slice_rel _ _ hsorted _ _ _ _ hkey i j hi2 hj2
    · have hg2 : g2 = 5 := by omega
      subst hg2
      have hj2 : j ∈ ((sortedIndices stars).drop (5 * (stars.length / 6))).take
          (((sortedIndices stars).drop (5 * (stars.length / 6))).length) := by
        rw [List.take_length, ← hg5]
        exact hj
      exact sorted_slice_rel _ _ hsorted _ _ _ _ hkey i j hi2 hj2
  refine ⟨by simp [fadeInGroups], ?_, hlg, hlg5, ?_, ?_⟩
  · rw [hflat]
    unfold sortedIndices
    exact List.perm_insertionSort _ _
  · intro g1 g2 h12 h26 i hi j hj
    refine ⟨hord g1 g2 h12 h26 i hi j hj, ?_⟩
    exact Real.sqrt_le_sqrt (by exact_mod_cast hord g1 g2 h12 h26 i hi j hj)
  · intro grp hgrp p hp
    simp only [fadeInAnims] at hgrp
    obtain ⟨g, -, rfl⟩ := List.mem_map.mp hgrp
    obtain ⟨idx, -, rfl⟩ := List.mem_map.mp hp
    rfl

/-- Witness for C6 on a concrete six-record set: the distance-ordering
conjunct applied to group 0 and group 5. -/
theorem fade_in_six_groups_by_distance_witness :
    (distKeys [(⟨1, 1, 100⟩ : Star), ⟨1, 1, 100⟩, ⟨1, 1, 100⟩, ⟨1, 1, 100⟩,
        ⟨1, 1, 100⟩, ⟨1, 1, 100⟩]).getD 0 0
      ≤ (distKeys [(⟨1, 1, 100⟩ : Star), ⟨1, 1, 100⟩, ⟨1, 1, 100⟩, ⟨1, 1, 100⟩,
        ⟨1, 1, 100⟩, ⟨1, 1, 100⟩]).getD 5 0
    ∧ Real.sqrt ((distKeys [(⟨1, 1, 100⟩ : Star), ⟨1, 1, 100⟩, ⟨1, 1, 100⟩, ⟨1, 1, 100⟩,
        ⟨1, 1, 100⟩, ⟨1, 1, 100⟩]).getD 0 0 : ℝ)
      ≤ Real.sqrt ((distKeys [(⟨1, 1, 100⟩ : Star), ⟨1, 1, 100⟩, ⟨1, 1, 100⟩, ⟨1, 1, 100⟩,
        ⟨1, 1, 100⟩, ⟨1, 1, 100⟩]).getD 5 0 : ℝ) := by
  have hne : ([(⟨1, 1, 100⟩ : Star), ⟨1, 1, 100⟩, ⟨1, 1, 100⟩, ⟨1, 1, 100⟩,
      ⟨1, 1, 100⟩, ⟨1, 1, 100⟩] : List Star) ≠ [] := List.cons_ne_nil _ _
  have hkeys : distKeys [(⟨1, 1, 100⟩ : Star), ⟨1, 1, 100⟩, ⟨1, 1, 100⟩, ⟨1, 1, 100⟩,
      ⟨1, 1, 100⟩, ⟨1, 1, 100⟩] = [20, 20, 20, 20, 20, 20] := by
    norm_num [distKeys, scale_x, scale_y, orOne, maxAbsList, max_def, abs, hne]
  have hsi : sortedIndices [(⟨1, 1, 100⟩ : Star), ⟨1, 1, 100⟩, ⟨1, 1, 100⟩, ⟨1, 1, 100⟩,
      ⟨1, 1, 100⟩, ⟨1, 1, 100⟩] = List.range 6 := by
    unfold sortedIndices
    apply insertionSort_eq_self_of_rel
    intro a ha b hb
    have ha6 : a < 6 := by simpa using List.mem_range.mp ha
    have hb6 : b < 6 := by simpa using List.mem_range.mp hb
    rw [hkeys]
    interval_cases a <;> interval_cases b <;> simp
  have hG0 : fadeInGroup [(⟨1, 1, 100⟩ : Star), ⟨1, 1, 100⟩, ⟨1, 1, 100⟩, ⟨1, 1, 100⟩,
      ⟨1, 1, 100⟩, ⟨1, 1, 100⟩] 0 = [0] := by
    simp only [fadeInGroup]
    rw [hsi]
    rfl
  have hG5 : fadeInGroup [(⟨1, 1, 100⟩ : Star), ⟨1, 1, 100⟩, ⟨1, 1, 100⟩, ⟨1, 1, 100⟩,
      ⟨1, 1, 100⟩, ⟨1, 1, 100⟩] 5 = [5] := by
    simp only [fadeInGroup]
    rw [hsi]
    rfl
  exact (fade_in_six_groups_by_distance _).2.2.2.2.1 0 5 (by omega) (by omega)
    0 (by rw [hG0]; simp) 5 (by rw [hG5]; simp)

/-- **C4, counterexample.** On the empty record set the rotation and group
fade-in stages still issue their `self.play` calls, so it is not the case
that only the title and closing stages play. -/
theorem empty_input_rotation_still_plays :
    Stage.rotate ∈ playedStages [] ∧ Stage.fadeIn ∈ playedStages []
    ∧ Stage.rotate ∉ [Stage.title, Stage.titleMove, Stage.finalTitle, Stage.closing]
    ∧ Stage.fadeIn ∉ [Stage.title, Stage.titleMove, Stage.finalTitle, Stage.closing] := by
  decide

/-- **C4, amended.** On the empty record set the constellation, statistics and
flash stages are skipped, both normalization scales default to 1, and the
stages that do play are exactly title entrance, title move, the (empty-group)
fade-in loop, the rotation, the final title and the closing message. -/
theorem empty_input_stage_skipping :
    playedStages []
      = [Stage.title, Stage.titleMove, Stage.fadeIn, Stage.rotate,
         Stage.finalTitle, Stage.closing]
    ∧ Stage.constellation ∉ playedStages []
    ∧ Stage.statistics ∉ playedStages []
    ∧ Stage.flash ∉ playedStages []
    ∧ scale_x [] = 1 ∧ scale_y [] = 1 := by
  refine ⟨by decide, by decide, by decide, by decide, rfl, rfl⟩

end ESO1242a
